import Mathlib

/-!
Shallow embedding of the data cleaning and aggregation pipeline of
`src/Frostiq.py` (interactive media intelligence dashboard).

The pipeline, as written in the source:
* column-name normalization maps arbitrary-case headers onto the canonical
  schema `Date, Platform, Sentiment, Location, Engagements, Media Type` and
  synthesizes missing columns; we model records post-normalization, with one
  field per canonical column (a cell read from CSV may be null, i.e. `NaN`);
* `Date` coercion (`pd.to_datetime(..., errors=coerce)`, line 57): the
  external parser's outcome on each cell is modelled by the cell's
  constructor (`null` / `bad` / `ok d`), since the program's behaviour
  depends only on that outcome;
* `invalid_date_count` (lines 56-58) is the delta of null counts before and
  after coercion;
* `missing_engagements_count` (lines 62-71) classifies each original
  `Engagements` cell; the stored value (line 73) is
  `to_numeric(...).fillna(0).astype(int)`, i.e. truncation of the parsed
  number, with `0` for null/unparseable cells;
* rows whose coerced `Date` is `NaT` are dropped (line 77);
* five aggregate tables (`value_counts` / `groupby ... sum`, which both skip
  null keys) and five derived insight lists.  Numeric insight payloads are
  modelled with exact rationals.
-/

/-- A parsed timestamp: `day` is the calendar-date component (an ordinal),
`tod` the time of day.  `pandas` `.dt.date` keeps only `day`. -/
structure Datetime where
  day : Int
  tod : Nat
deriving DecidableEq

/-- The `Date` cell of an input row, classified by its fate under
`pd.to_datetime(..., errors=coerce)` (line 57):
`null` = the cell was already null (`NaN`) before coercion;
`bad`  = a non-null value on which parsing fails (coerced to `NaT`);
`ok d` = a non-null value parsing to the timestamp `d`. -/
inductive DateCell where
  | null
  | bad
  | ok (d : Datetime)
deriving DecidableEq

/-- The `Engagements` cell of an input row, classified by its fate under both
`float(...)` (line 69) and `pd.to_numeric(..., errors=coerce)` (line 73):
`null`    = a null (`NaN`) cell;
`num q`   = a numeric python value `q` (read_csv parsed the column);
`strOk q` = a non-blank string parsing to the number `q`;
`strBad`  = a non-blank string on which numeric parsing fails;
`blank`   = a string that strips to the empty string. -/
inductive EngCell where
  | null
  | num (q : Rat)
  | strOk (q : Rat)
  | strBad
  | blank
deriving DecidableEq

/-- A row after column normalization: one cell per canonical column.  The four
free-text columns hold `Option String` (`none` = a null/`NaN` cell). -/
structure RawRecord where
  date : DateCell
  platform : Option String
  sentiment : Option String
  location : Option String
  engagements : EngCell
  mediaType : Option String
deriving DecidableEq

/-- A row of the cleaned dataset: the `Date` is a valid timestamp and
`Engagements` an integer. -/
structure CleanRecord where
  date : Datetime
  platform : Option String
  sentiment : Option String
  location : Option String
  engagements : Int
  mediaType : Option String
deriving DecidableEq

/-- `pd.to_datetime(cell, errors=coerce)` (line 57): null and unparseable
cells become `NaT` (`none`), parseable ones the parsed timestamp. -/
def coerceDate : DateCell → Option Datetime
  | .null => none
  | .bad => none
  | .ok d => some d

/-- Whether a `Date` cell is null before coercion (`df.isnull()`, line 56). -/
def DateCell.isNullCell : DateCell → Bool
  | .null => true
  | _ => false

/-- `pd.to_numeric(cell, errors=coerce)` (line 73): the parsed number, or
`none` (`NaN`) for null, blank and unparseable cells. -/
def engParse : EngCell → Option Rat
  | .null => none
  | .num q => some q
  | .strOk q => some q
  | .strBad => none
  | .blank => none

/-- `astype(int)` on a float value: truncation toward zero. -/
def truncRat (q : Rat) : Int :=
  if 0 ≤ q then q.floor else -((-q).floor)

/-- The stored `Engagements` value (line 73):
`to_numeric(...).fillna(0).astype(int)`. -/
def engValue (c : EngCell) : Int :=
  truncRat ((engParse c).getD 0)

/-- The classification loop of lines 62-71: a cell counts as missing/invalid
when it is null (`pd.isna`), strips to the empty string, or is a
non-numeric value on which `float(...)` raises `ValueError`. -/
def missingEng : EngCell → Bool
  | .null => true
  | .blank => true
  | .strBad => true
  | .num _ => false
  | .strOk _ => false

/-- `missing_engagements_count` (lines 62-71), computed over all rows before
any row is dropped, from the original cell contents. -/
def missing_engagements_count (rs : List RawRecord) : Nat :=
  (rs.filter (fun r => missingEng r.engagements)).length

/-- `initial_date_nulls` (line 56): null `Date` cells before coercion. -/
def initial_date_nulls (rs : List RawRecord) : Nat :=
  (rs.filter (fun r => r.date.isNullCell)).length

/-- Null `Date` cells after coercion (`df.isnull().sum()` on line 58). -/
def post_date_nulls (rs : List RawRecord) : Nat :=
  (rs.filter (fun r => (coerceDate r.date).isNone)).length

/-- `invalid_date_count` (line 58): nulls after coercion minus nulls before
coercion (the "delta" count of newly appearing `NaT` values). -/
def invalid_date_count (rs : List RawRecord) : Nat :=
  post_date_nulls rs - initial_date_nulls rs

/-- Cleaning one row: coerce the date (dropping the row if it yields `NaT`,
line 77) and replace `Engagements` by its converted integer (line 73). -/
def cleanRecord (r : RawRecord) : Option CleanRecord :=
  match coerceDate r.date with
  | none => none
  | some d =>
      some { date := d, platform := r.platform, sentiment := r.sentiment,
             location := r.location, engagements := engValue r.engagements,
             mediaType := r.mediaType }

/-- The cleaned dataset: the `DataFrame` after `dropna(subset=[Date])`
(line 77), with `Engagements` already converted. -/
def cleanTable (rs : List RawRecord) : List CleanRecord :=
  rs.filterMap cleanRecord

/-- `original_rows` (line 30). -/
def original_rows (rs : List RawRecord) : Nat := rs.length

/-- `cleaned_rows` (line 79). -/
def cleaned_rows (rs : List RawRecord) : Nat := (cleanTable rs).length

/-- Total `Engagements` over a cleaned dataset. -/
def total_engagements (rows : List CleanRecord) : Int :=
  (rows.map (fun r => r.engagements)).sum

theorem cleaned_rows_add_dropped (rs : List RawRecord) :
    cleaned_rows rs + post_date_nulls rs = original_rows rs := by
  induction rs with
  | nil => rfl
  | cons r rs ih =>
      cases h : coerceDate r.date with
      | none =>
          simp only [cleaned_rows, cleanTable, List.filterMap_cons, cleanRecord, h,
            post_date_nulls, List.filter_cons, Option.isNone_none, original_rows,
            List.length_cons, if_true] at *
          omega
      | some d =>
          simp only [cleaned_rows, cleanTable, List.filterMap_cons, cleanRecord, h,
            post_date_nulls, List.filter_cons, Option.isNone_some, original_rows,
            List.length_cons, Bool.false_eq_true, if_false] at *
          omega

/-- Stable insertion for a descending sort by the measure `m` (the element
keeps walking past entries whose measure is at least its own). -/
def insertDescBy (m : α → Int) (x : α) : List α → List α
  | [] => [x]
  | y :: ys => if m x ≤ m y then y :: insertDescBy m x ys else x :: y :: ys

/-- Stable descending sort by the measure `m`; models
`sort_values(ascending=False)` on the metric column (and, with a negated
key measure, the ascending key order produced by `groupby`). -/
def sortDescBy (m : α → Int) : List α → List α
  | [] => []
  | x :: xs => insertDescBy m x (sortDescBy m xs)

theorem insertDescBy_perm (m : α → Int) (x : α) (l : List α) :
    (insertDescBy m x l).Perm (x :: l) := by
  induction l with
  | nil => exact List.Perm.refl _
  | cons y ys ih =>
      simp only [insertDescBy]
      by_cases h : m x ≤ m y
      · simp only [h, if_true]
        exact (ih.cons y).trans (List.Perm.swap x y ys)
      · simp only [h, if_false]
        exact List.Perm.refl _

theorem sortDescBy_perm (m : α → Int) (l : List α) :
    (sortDescBy m l).Perm l := by
  induction l with
  | nil => exact List.Perm.refl _
  | cons x xs ih =>
      exact (insertDescBy_perm m x (sortDescBy m xs)).trans (ih.cons x)

theorem insertDescBy_pairwise (m : α → Int) (x : α) (l : List α)
    (h : l.Pairwise (fun a b => m b ≤ m a)) :
    (insertDescBy m x l).Pairwise (fun a b => m b ≤ m a) := by
  induction l with
  | nil => simp [insertDescBy]
  | cons y ys ih =>
      rcases List.pairwise_cons.mp h with ⟨hy, hys⟩
      simp only [insertDescBy]
      by_cases hxy : m x ≤ m y
      · simp only [hxy, if_true]
        refine List.pairwise_cons.mpr ⟨?_, ih hys⟩
        intro z hz
        rcases List.mem_cons.mp ((insertDescBy_perm m x ys).mem_iff.mp hz) with
          hz1 | hz1
        · rw [hz1]; exact hxy
        · exact hy z hz1
      · simp only [hxy, if_false]
        refine List.pairwise_cons.mpr ⟨?_, h⟩
        intro z hz
        rcases List.mem_cons.mp hz with hz1 | hz1
        · rw [hz1]; omega
        · exact le_trans (hy z hz1) (by omega)

theorem sortDescBy_pairwise (m : α → Int) (l : List α) :
    (sortDescBy m l).Pairwise (fun a b => m b ≤ m a) := by
  induction l with
  | nil => simp [sortDescBy]
  | cons x xs ih => exact insertDescBy_pairwise m x _ ih

/-- The metric of one group: the sum of the weight `w` over the cleaned rows
whose key cell equals `k` (`groupby(key)[w].sum()`, with `w = 1` the member
count computed by `value_counts`). -/
def groupWeight [DecidableEq κ] (key : CleanRecord → Option κ)
    (w : CleanRecord → Int) (rows : List CleanRecord) (k : κ) : Int :=
  ((rows.filter (fun r => decide (key r = some k))).map w).sum

/-- A generic aggregate table: one row per distinct non-null key (null keys
are skipped, as `value_counts` and `groupby` do by default), with the summed
weight as metric, ordered by the measure `m` descending. -/
def groupTable [DecidableEq κ] (key : CleanRecord → Option κ)
    (w : CleanRecord → Int) (m : κ × Int → Int)
    (rows : List CleanRecord) : List (κ × Int) :=
  sortDescBy m
    (((rows.filterMap key).dedup).map (fun k => (k, groupWeight key w rows k)))

/-- `sentiment_counts` (line 95): `value_counts` of `Sentiment`, descending
by count. -/
def sentiment_counts (rows : List CleanRecord) : List (String × Int) :=
  groupTable (fun r => r.sentiment) (fun _ => 1) (fun p => p.2) rows

/-- `media_type_counts` (line 187): `value_counts` of `Media Type`,
descending by count. -/
def media_type_counts (rows : List CleanRecord) : List (String × Int) :=
  groupTable (fun r => r.mediaType) (fun _ => 1) (fun p => p.2) rows

/-- `engagement_by_date` (line 124): sum of `Engagements` grouped by the
calendar-date component of `Date`, ordered by date ascending (the `groupby`
key order), i.e. descending by the negated day. -/
def engagement_by_date (rows : List CleanRecord) : List (Int × Int) :=
  groupTable (fun r => some r.date.day) (fun r => r.engagements)
    (fun p => -p.1) rows

/-- `platform_engagements` (lines 160-161): sum of `Engagements` grouped by
`Platform`, sorted descending by the sum. -/
def platform_engagements (rows : List CleanRecord) : List (String × Int) :=
  groupTable (fun r => r.platform) (fun r => r.engagements) (fun p => p.2) rows

/-- The full per-location engagement sums of line 218, sorted descending by
the sum (line 219, before `head(5)`). -/
def location_sums_sorted (rows : List CleanRecord) : List (String × Int) :=
  groupTable (fun r => r.location) (fun r => r.engagements) (fun p => p.2) rows

/-- `engagements_by_location` (line 219): the location sums truncated to the
top five rows by `head(5)`. -/
def engagements_by_location (rows : List CleanRecord) : List (String × Int) :=
  (location_sums_sorted rows).take 5

theorem groupWeight_nil [DecidableEq κ] (key : CleanRecord → Option κ)
    (w : CleanRecord → Int) (k : κ) : groupWeight key w [] k = 0 := rfl

theorem groupWeight_cons [DecidableEq κ] (key : CleanRecord → Option κ)
    (w : CleanRecord → Int) (r : CleanRecord) (rows : List CleanRecord)
    (k : κ) :
    groupWeight key w (r :: rows) k
      = (if key r = some k then w r else 0) + groupWeight key w rows k := by
  simp only [groupWeight, List.filter_cons]
  by_cases h : key r = some k
  · simp [h]
  · simp [h]

theorem sum_map_ite_eq [DecidableEq κ] (keys : List κ) (k : κ) (v : Int)
    (hnd : keys.Nodup) (hk : k ∈ keys) :
    (keys.map (fun x => if k = x then v else 0)).sum = v := by
  induction keys with
  | nil => cases hk
  | cons a as ih =>
      rcases List.mem_cons.mp hk with h | h
      · subst h
        have hz : (as.map (fun x => if k = x then v else 0)).sum = 0 :=
          List.sum_eq_zero (fun y hy => by
            rcases List.mem_map.mp hy with ⟨x, hx, hxy⟩
            have hne : k ≠ x := fun e => (List.nodup_cons.mp hnd).1 (e ▸ hx)
            rw [← hxy, if_neg hne])
        simp [hz]
      · have hka : k ≠ a := fun e => (List.nodup_cons.mp hnd).1 (e ▸ h)
        simp only [List.map_cons, List.sum_cons, if_neg hka, zero_add]
        exact ih (List.nodup_cons.mp hnd).2 h

/-- Partitioning a weighted sum over any duplicate-free key list covering all
non-null keys of the rows. -/
theorem sum_groupWeight [DecidableEq κ] (key : CleanRecord → Option κ)
    (w : CleanRecord → Int) (rows : List CleanRecord) (keys : List κ)
    (hnd : keys.Nodup)
    (hcov : ∀ r ∈ rows, ∀ k, key r = some k → k ∈ keys) :
    (keys.map (groupWeight key w rows)).sum
      = ((rows.filter (fun r => (key r).isSome)).map w).sum := by
  induction rows with
  | nil =>
      have hz : (keys.map (groupWeight key w [])).sum = 0 :=
        List.sum_eq_zero (fun y hy => by
          rcases List.mem_map.mp hy with ⟨x, hx, hxy⟩
          rw [← hxy, groupWeight_nil])
      simp [hz]
  | cons r rows ih =>
      have ihr := ih (fun r' hr' => hcov r' (List.mem_cons_of_mem r hr'))
      cases hk : key r with
      | none =>
          have hmap : keys.map (groupWeight key w (r :: rows))
              = keys.map (groupWeight key w rows) := by
            refine List.map_congr_left ?_
            intro k _
            rw [groupWeight_cons, hk]
            simp
          rw [hmap, ihr]
          simp [List.filter_cons, hk]
      | some k0 =>
          have hmem : k0 ∈ keys := hcov r (List.mem_cons_self r rows) k0 hk
          have hmap : keys.map (groupWeight key w (r :: rows))
              = keys.map (fun k =>
                  (if k0 = k then w r else 0) + groupWeight key w rows k) := by
            refine List.map_congr_left ?_
            intro k _
            rw [groupWeight_cons, hk]
            simp only [Option.some.injEq]
          rw [hmap, List.sum_map_add, sum_map_ite_eq keys k0 (w r) hnd hmem, ihr]
          simp [List.filter_cons, hk]

/-- The metrics of a generic aggregate table sum to the total weight of the
cleaned rows whose key cell is non-null. -/
theorem groupTable_sum [DecidableEq κ] (key : CleanRecord → Option κ)
    (w : CleanRecord → Int) (m : κ × Int → Int) (rows : List CleanRecord) :
    ((groupTable key w m rows).map (fun p => p.2)).sum
      = ((rows.filter (fun r => (key r).isSome)).map w).sum := by
  have hperm : ((groupTable key w m rows).map (fun p => p.2)).Perm
      ((((rows.filterMap key).dedup).map
        (fun k => (k, groupWeight key w rows k))).map (fun p => p.2)) :=
    (sortDescBy_perm _ _).map _
  rw [hperm.sum_eq, List.map_map]
  have hcomp : ((fun p => p.2) ∘ fun k => (k, groupWeight key w rows k))
      = groupWeight key w rows := rfl
  rw [hcomp]
  exact sum_groupWeight key w rows _ (List.nodup_dedup _)
    (fun r hr k hk => List.mem_dedup.mpr (List.mem_filterMap.mpr ⟨r, hr, hk⟩))

/-- One of the up-to-three sentiment insight sentences (lines 111-119),
by its template and numeric payload (shares as exact percentages). -/
inductive CountInsight where
  | dominant (k : String) (share : Rat)
  | secondMost (k : String) (share : Rat)
  | thirdMost (k : String) (share : Rat)
deriving DecidableEq

/-- One of the up-to-three media-type insight sentences (lines 203-212). -/
inductive MediaInsight where
  | prevalent (k : String) (share : Rat)
  | secondType (k : String) (share : Rat)
  | diverse
  | concentrated
deriving DecidableEq

/-- The relative percentage difference of line 178: special-cased to an
explicit infinite value when the rank-2 sum is zero. -/
inductive PDiff where
  | finite (q : Rat)
  | infinite
deriving DecidableEq

/-- `percentage_difference` (line 178): `(top - second) / second * 100` when
`second` is nonzero, else `float(inf)`. -/
def percentageDifference (top second : Int) : PDiff :=
  if second ≠ 0 then .finite (((top : Rat) - (second : Rat)) / (second : Rat) * 100)
  else .infinite

/-- `percentage_difference > 0` (line 179); `float(inf) > 0` is true. -/
def PDiff.isMore : PDiff → Bool
  | .finite q => decide (0 < q)
  | .infinite => true

/-- One of the up-to-three platform insight sentences (lines 173-181). -/
inductive PlatformInsight where
  | top (k : String) (tot : Int)
  | comparison (d : PDiff) (more : Bool)
  | topThree
deriving DecidableEq

/-- One of the up-to-three location insight sentences (lines 231-238). -/
inductive LocationInsight where
  | highest (k : String) (tot : Int)
  | topTwo (k1 k2 : String)
  | topFive
deriving DecidableEq

/-- The trend classification of lines 149-154. -/
inductive Trend where
  | upward
  | downward
  | stable
deriving DecidableEq

/-- One of the up-to-three engagement-trend insight sentences
(lines 139-154). -/
inductive DateInsight where
  | peak (day : Int) (tot : Int)
  | average (avg : Rat)
  | trend (t : Trend)
deriving DecidableEq

/-- Lines 149-154: `upward` when the last total exceeds the first times 1.1,
else `downward` when it is below the first times 0.9, else `stable`. -/
def trendClass (first last : Int) : Trend :=
  if (first : Rat) * (11 / 10 : Rat) < (last : Rat) then .upward
  else if (last : Rat) < (first : Rat) * (9 / 10 : Rat) then .downward
  else .stable

/-- `idxmax` row of the date aggregate (line 140): the first row attaining
the maximal total. -/
def peakOf : List (Int × Int) → Int × Int
  | [] => (0, 0)
  | p :: ps => ps.foldl (fun acc q => if acc.2 < q.2 then q else acc) p

/-- The metric of the first row of the date aggregate
(`iloc[0]`, line 147). -/
def firstTotal (rows : List CleanRecord) : Int :=
  ((engagement_by_date rows).getD 0 (0, 0)).2

/-- The metric of the last row of the date aggregate
(`iloc[-1]`, line 148). -/
def lastTotal (rows : List CleanRecord) : Int :=
  ((engagement_by_date rows).getLastD (0, 0)).2

/-- The share (in percent) of row `i` of a table in the table's total
metric (`count / total * 100`). -/
def shareOf (t : List (String × Int)) (i : Nat) : Rat :=
  (((t.getD i ("", 0)).2 : Rat) / ((t.map (fun p => p.2)).sum : Rat)) * 100

/-- The sentiment insight list (lines 108-120): dominant, second and third
sentiment with their shares, each guarded by the table's length. -/
def sentimentInsights (rows : List CleanRecord) : List CountInsight :=
  let t := sentiment_counts rows
  (if 0 < t.length then
    [CountInsight.dominant (t.getD 0 ("", 0)).1 (shareOf t 0)] else [])
  ++ (if 1 < t.length then
    [CountInsight.secondMost (t.getD 1 ("", 0)).1 (shareOf t 1)] else [])
  ++ (if 2 < t.length then
    [CountInsight.thirdMost (t.getD 2 ("", 0)).1 (shareOf t 2)] else [])

/-- The engagement-trend insight list (lines 137-155): peak day, average
daily engagement, and — only with at least two aggregate rows — the trend
classified from the first and last chronological totals. -/
def dateInsights (rows : List CleanRecord) : List DateInsight :=
  let t := engagement_by_date rows
  if 0 < t.length then
    [DateInsight.peak (peakOf t).1 (peakOf t).2,
     DateInsight.average (((t.map (fun p => p.2)).sum : Rat) / (t.length : Rat))]
    ++ (if 1 < t.length then
      [DateInsight.trend (trendClass (firstTotal rows) (lastTotal rows))] else [])
  else []

/-- The platform insight list (lines 171-182): top platform, the relative
percentage difference to the runner-up, and a top-three remark. -/
def platformInsights (rows : List CleanRecord) : List PlatformInsight :=
  let t := platform_engagements rows
  (if 0 < t.length then
    [PlatformInsight.top (t.getD 0 ("", 0)).1 (t.getD 0 ("", 0)).2] else [])
  ++ (if 1 < t.length then
    [PlatformInsight.comparison
      (percentageDifference (t.getD 0 ("", 0)).2 (t.getD 1 ("", 0)).2)
      (percentageDifference (t.getD 0 ("", 0)).2 (t.getD 1 ("", 0)).2).isMore]
    else [])
  ++ (if 2 < t.length then [PlatformInsight.topThree] else [])

/-- The media-type insight list (lines 200-213): prevalent and second media
type with shares, then a diversity/concentration remark whenever the table
is non-empty (diverse iff the leading share is below one half). -/
def mediaInsights (rows : List CleanRecord) : List MediaInsight :=
  let t := media_type_counts rows
  (if 0 < t.length then
    [MediaInsight.prevalent (t.getD 0 ("", 0)).1 (shareOf t 0)] else [])
  ++ (if 1 < t.length then
    [MediaInsight.secondType (t.getD 1 ("", 0)).1 (shareOf t 1)] else [])
  ++ (if 0 < t.length then
    (if ((t.getD 0 ("", 0)).2 : Rat) / ((t.map (fun p => p.2)).sum : Rat)
        < (1 / 2 : Rat)
     then [MediaInsight.diverse] else [MediaInsight.concentrated]) else [])

/-- The location insight list (lines 229-239), computed from the truncated
top-five table. -/
def locationInsights (rows : List CleanRecord) : List LocationInsight :=
  let t := engagements_by_location rows
  (if 0 < t.length then
    [LocationInsight.highest (t.getD 0 ("", 0)).1 (t.getD 0 ("", 0)).2] else [])
  ++ (if 1 < t.length then
    [LocationInsight.topTwo (t.getD 0 ("", 0)).1 (t.getD 1 ("", 0)).1] else [])
  ++ (if 2 < t.length then [LocationInsight.topFive] else [])

/-- Feeding a cleaned row back into the pipeline: its `Date` holds an
already-parsed timestamp (`to_datetime` leaves it unchanged) and its
`Engagements` a numeric integer value. -/
def recordOfClean (c : CleanRecord) : RawRecord :=
  { date := .ok c.date, platform := c.platform, sentiment := c.sentiment,
    location := c.location, engagements := .num (c.engagements : Rat),
    mediaType := c.mediaType }

theorem ratFloor_intCast (n : Int) : ((n : Rat)).floor = n := rfl

theorem truncRat_intCast (n : Int) : truncRat ((n : Int) : Rat) = n := by
  unfold truncRat
  by_cases h : 0 ≤ n
  · rw [if_pos (by exact_mod_cast h), ratFloor_intCast]
  · rw [if_neg (by exact_mod_cast h), ← Int.cast_neg, ratFloor_intCast]
    omega

theorem truncRat_nonneg (q : Rat) (hq : 0 ≤ q) : 0 ≤ truncRat q := by
  unfold truncRat
  rw [if_pos hq]
  exact Rat.le_floor.mpr (by exact_mod_cast hq)

theorem engValue_intCast (n : Int) : engValue (.num (n : Rat)) = n := by
  simp [engValue, engParse, truncRat_intCast]

theorem cleanRecord_recordOfClean (c : CleanRecord) :
    cleanRecord (recordOfClean c) = some c := by
  cases c
  simp [cleanRecord, recordOfClean, coerceDate, engValue_intCast]

theorem cleanTable_roundTrip (cs : List CleanRecord) :
    cleanTable (cs.map recordOfClean) = cs := by
  induction cs with
  | nil => rfl
  | cons c cs ih =>
      simp only [cleanTable, List.map_cons, List.filterMap_cons,
        cleanRecord_recordOfClean] at *
      simp [ih]

theorem sum_map_one (l : List α) :
    (l.map (fun _ => (1 : Int))).sum = (l.length : Int) := by
  induction l with
  | nil => rfl
  | cons a l ih => simp [ih]; omega

theorem cleaned_eq_kept (rs : List RawRecord) :
    cleaned_rows rs = (rs.filter (fun r => (coerceDate r.date).isSome)).length := by
  induction rs with
  | nil => rfl
  | cons r rs ih =>
      cases h : coerceDate r.date with
      | none =>
          simpa [cleaned_rows, cleanTable, List.filterMap_cons, cleanRecord, h,
            List.filter_cons] using ih
      | some d =>
          simpa [cleaned_rows, cleanTable, List.filterMap_cons, cleanRecord, h,
            List.filter_cons] using ih

/-- C1: for every input table, the cleaned row count never exceeds the
original row count; it equals the original count minus the number of rows
whose `Date` cell failed to parse (came out of the coercion with no valid
date, i.e. as `NaT`); and exactly the rows whose `Date` coerces to a valid
date are retained, so a row with any other defect is never dropped. -/
theorem c1_cleaned_row_count (rs : List RawRecord) :
    cleaned_rows rs ≤ original_rows rs
    ∧ cleaned_rows rs
        = original_rows rs
          - (rs.filter (fun r => (coerceDate r.date).isNone)).length
    ∧ cleaned_rows rs
        = (rs.filter (fun r => (coerceDate r.date).isSome)).length := by
  have h1 := cleaned_rows_add_dropped rs
  have h2 := cleaned_eq_kept rs
  unfold post_date_nulls at h1
  exact ⟨by omega, by omega, h2⟩

/-- C4: the reported `invalid_date_count` equals the number of `Date` cells
that were non-null before coercion but failed to parse during coercion;
pre-existing nulls are not counted, and the delta (post-coercion nulls minus
pre-existing nulls) never truncates. -/
theorem c4_invalid_date_count (rs : List RawRecord) :
    invalid_date_count rs
      = (rs.filter (fun r =>
          !r.date.isNullCell && (coerceDate r.date).isNone)).length
    ∧ invalid_date_count rs + initial_date_nulls rs = post_date_nulls rs := by
  have key : post_date_nulls rs
      = initial_date_nulls rs
        + (rs.filter (fun r =>
            !r.date.isNullCell && (coerceDate r.date).isNone)).length := by
    induction rs with
    | nil => rfl
    | cons r rs ih =>
        cases hd : r.date with
        | null =>
            simp only [post_date_nulls, initial_date_nulls, List.filter_cons,
              hd, DateCell.isNullCell, coerceDate] at *
            simp only [Option.isNone_none, Bool.not_true, Bool.false_and,
              if_true, Bool.false_eq_true, if_false, List.length_cons]
            omega
        | bad =>
            simp only [post_date_nulls, initial_date_nulls, List.filter_cons,
              hd, DateCell.isNullCell, coerceDate] at *
            simp only [Option.isNone_none, Bool.not_false, Bool.true_and,
              if_true, Bool.true_eq_false, Bool.false_eq_true, if_false,
              List.length_cons]
            omega
        | ok d =>
            simp only [post_date_nulls, initial_date_nulls, List.filter_cons,
              hd, DateCell.isNullCell, coerceDate] at *
            simp only [Option.isNone_some, Bool.not_false, Bool.true_and,
              Bool.false_eq_true, if_false, Bool.true_eq_false]
            omega
  unfold invalid_date_count
  omega

/-- C3 counterexample: an input row whose `Engagements` cell holds the
numeric value `-5` survives cleaning with the stored value `-5`, which is
negative — the coercion of line 73 never clamps to non-negative values. -/
theorem c3_counterexample :
    (cleanTable [{ date := .ok ⟨0, 0⟩, platform := none, sentiment := none,
                   location := none, engagements := .num (-5),
                   mediaType := none }]).map (fun r => r.engagements)
      = [-5]
    ∧ (-5 : Int) < 0 := by decide

/-- C3 amended: after the field coercion, the `Engagements` value of every
retained record is a valid integer — the truncation of the parsed numeric
value when the original cell parses, and `0` when the cell was absent or
unparseable; it is non-negative whenever the parsed-or-defaulted value is
non-negative (but a negative numeric cell is stored negated from zero, see
the counterexample). -/
theorem c3_engagements_integer (r : RawRecord) (c : CleanRecord)
    (h : cleanRecord r = some c) :
    c.engagements = engValue r.engagements
    ∧ (engParse r.engagements = none → c.engagements = 0)
    ∧ (∀ q, engParse r.engagements = some q → c.engagements = truncRat q)
    ∧ (0 ≤ (engParse r.engagements).getD 0 → 0 ≤ c.engagements) := by
  have hc : c.engagements = engValue r.engagements := by
    unfold cleanRecord at h
    cases hd : coerceDate r.date with
    | none => rw [hd] at h; cases h
    | some d =>
        rw [hd] at h
        cases h
        rfl
  refine ⟨hc, ?_, ?_, ?_⟩
  · intro hp
    rw [hc]
    unfold engValue
    rw [hp]
    rfl
  · intro q hp
    rw [hc]
    unfold engValue
    rw [hp]
    rfl
  · intro hq
    rw [hc]
    exact truncRat_nonneg _ hq

theorem c3_engagements_integer_witness :
    cleanRecord { date := .ok ⟨0, 0⟩, platform := none, sentiment := none,
                  location := none, engagements := .strOk 150,
                  mediaType := none }
      = some { date := ⟨0, 0⟩, platform := none, sentiment := none,
               location := none, engagements := 150, mediaType := none }
    ∧ ((150 : Int) = engValue (.strOk 150)
       ∧ (engParse (EngCell.strOk 150) = none → (150 : Int) = 0)
       ∧ (∀ q, engParse (EngCell.strOk 150) = some q
            → (150 : Int) = truncRat q)
       ∧ (0 ≤ (engParse (EngCell.strOk 150)).getD 0 → 0 ≤ (150 : Int))) :=
  ⟨by decide,
   c3_engagements_integer
     { date := .ok ⟨0, 0⟩, platform := none, sentiment := none,
       location := none, engagements := .strOk 150, mediaType := none }
     { date := ⟨0, 0⟩, platform := none, sentiment := none,
       location := none, engagements := 150, mediaType := none }
     (by decide)⟩

/-- C8: the missing/invalid `Engagements` classification of lines 62-71 is
computed from the original cell contents and coincides with
"the numeric parse of the cell yields nothing": an absent or blank cell and
an unparseable string are classified missing, a parseable cell is not,
independently of the value stored afterwards.  In particular an empty cell
is classified missing and stored as `0`, while the numeric string `"150"`
is stored as the integer `150` and not counted. -/
theorem c8_missing_classification :
    (∀ c : EngCell, missingEng c = true ↔ engParse c = none)
    ∧ missingEng .blank = true
    ∧ engValue .blank = 0
    ∧ (∀ q : Rat, missingEng (.strOk q) = false)
    ∧ (∀ q : Rat, missingEng (.num q) = false)
    ∧ engValue (.strOk 150) = 150 := by
  refine ⟨?_, rfl, by decide, fun q => rfl, fun q => rfl, by decide⟩
  intro c
  cases c <;> simp [missingEng, engParse]

/-- C9: the pipeline is idempotent on its own output — re-cleaning the
cleaned dataset (valid dates, integer engagement values) reproduces it
exactly, so the cleaned row count is unchanged and all five aggregate
tables are identical. -/
theorem c9_idempotent (rs : List RawRecord) :
    cleanTable ((cleanTable rs).map recordOfClean) = cleanTable rs
    ∧ cleaned_rows ((cleanTable rs).map recordOfClean) = cleaned_rows rs
    ∧ sentiment_counts (cleanTable ((cleanTable rs).map recordOfClean))
        = sentiment_counts (cleanTable rs)
    ∧ engagement_by_date (cleanTable ((cleanTable rs).map recordOfClean))
        = engagement_by_date (cleanTable rs)
    ∧ platform_engagements (cleanTable ((cleanTable rs).map recordOfClean))
        = platform_engagements (cleanTable rs)
    ∧ media_type_counts (cleanTable ((cleanTable rs).map recordOfClean))
        = media_type_counts (cleanTable rs)
    ∧ engagements_by_location (cleanTable ((cleanTable rs).map recordOfClean))
        = engagements_by_location (cleanTable rs) := by
  have key := cleanTable_roundTrip (cleanTable rs)
  exact ⟨key, by simp [cleaned_rows, key], by rw [key], by rw [key],
    by rw [key], by rw [key], by rw [key]⟩

/-- C2 counterexample: a cleaned row whose `Sentiment` cell is null is not
counted by `value_counts` (which skips nulls), so the sentiment metrics sum
to `0` while the cleaned row count is `1`. -/
theorem c2_counterexample :
    ((sentiment_counts (cleanTable
        [{ date := .ok ⟨0, 0⟩, platform := none, sentiment := none,
           location := none, engagements := .num 5,
           mediaType := none }])).map (fun p => p.2)).sum
      ≠ ((cleaned_rows
        [{ date := .ok ⟨0, 0⟩, platform := none, sentiment := none,
           location := none, engagements := .num 5,
           mediaType := none }] : Nat) : Int) := by decide

/-- C2 amended: the count-based aggregate metrics (sentiment, media type)
each sum to the number of cleaned rows whose key cell is non-null, and the
sum-based metrics (platform, full location sums) to the total `Engagements`
over cleaned rows whose key cell is non-null; the date aggregate — whose key
is never null after cleaning — always sums to the total `Engagements` over
all cleaned rows.  (The original claim holds exactly when no cleaned row
has a null key cell, cf. the counterexample.) -/
theorem c2_aggregate_sums (rs : List RawRecord) :
    ((sentiment_counts (cleanTable rs)).map (fun p => p.2)).sum
      = (((cleanTable rs).filter (fun r => r.sentiment.isSome)).length : Int)
    ∧ ((media_type_counts (cleanTable rs)).map (fun p => p.2)).sum
      = (((cleanTable rs).filter (fun r => r.mediaType.isSome)).length : Int)
    ∧ ((platform_engagements (cleanTable rs)).map (fun p => p.2)).sum
      = (((cleanTable rs).filter (fun r => r.platform.isSome)).map
          (fun r => r.engagements)).sum
    ∧ ((location_sums_sorted (cleanTable rs)).map (fun p => p.2)).sum
      = (((cleanTable rs).filter (fun r => r.location.isSome)).map
          (fun r => r.engagements)).sum
    ∧ ((engagement_by_date (cleanTable rs)).map (fun p => p.2)).sum
      = total_engagements (cleanTable rs) := by
  refine ⟨?_, ?_, ?_, ?_, ?_⟩
  · rw [sentiment_counts, groupTable_sum, sum_map_one]
  · rw [media_type_counts, groupTable_sum, sum_map_one]
  · rw [platform_engagements, groupTable_sum]
  · rw [location_sums_sorted, groupTable_sum]
  · rw [engagement_by_date, groupTable_sum, total_engagements]
    simp [List.filter_true]

/-- C10: for every cleaned dataset the top-locations table has at most five
rows, is ordered by non-increasing engagement sum, is a prefix of the full
descending sequence of per-location sums, and every entry it contains is at
least as large as every entry it cut off. -/
theorem c10_top_locations (rows : List CleanRecord) :
    (engagements_by_location rows).length ≤ 5
    ∧ List.Pairwise (fun a b => b.2 ≤ a.2) (engagements_by_location rows)
    ∧ (∃ rest, location_sums_sorted rows
        = engagements_by_location rows ++ rest)
    ∧ ∀ x ∈ engagements_by_location rows,
        ∀ y ∈ (location_sums_sorted rows).drop 5, y.2 ≤ x.2 := by
  have hsort : List.Pairwise (fun a b : String × Int => b.2 ≤ a.2)
      (location_sums_sorted rows) := by
    unfold location_sums_sorted groupTable
    exact sortDescBy_pairwise _ _
  refine ⟨?_, ?_, ?_, ?_⟩
  · exact List.length_take_le 5 _
  · exact hsort.sublist (List.take_sublist 5 _)
  · exact ⟨(location_sums_sorted rows).drop 5,
      (List.take_append_drop 5 _).symm⟩
  · intro x hx y hy
    have hsplit := List.take_append_drop 5 (location_sums_sorted rows)
    rw [← hsplit] at hsort
    exact (List.pairwise_append.mp hsort).2.2 x hx y hy

/-- A one-row input whose single row is dropped for its unparseable date;
used to witness the zero-cleaned-rows guard. -/
def emptyProbe : List RawRecord :=
  [{ date := .bad, platform := none, sentiment := none, location := none,
     engagements := .null, mediaType := none }]

/-- C7: when the cleaned dataset is empty, all five aggregate tables and all
five insight lists are empty; every stage is a total function, so no
exception can arise on the zero-row path. -/
theorem c7_empty_pipeline (rs : List RawRecord) (h : cleanTable rs = []) :
    sentiment_counts (cleanTable rs) = []
    ∧ engagement_by_date (cleanTable rs) = []
    ∧ platform_engagements (cleanTable rs) = []
    ∧ media_type_counts (cleanTable rs) = []
    ∧ engagements_by_location (cleanTable rs) = []
    ∧ sentimentInsights (cleanTable rs) = []
    ∧ dateInsights (cleanTable rs) = []
    ∧ platformInsights (cleanTable rs) = []
    ∧ mediaInsights (cleanTable rs) = []
    ∧ locationInsights (cleanTable rs) = [] := by
  rw [h]
  decide

theorem c7_empty_pipeline_witness :
    cleanTable emptyProbe = []
    ∧ (sentiment_counts (cleanTable emptyProbe) = []
       ∧ engagement_by_date (cleanTable emptyProbe) = []
       ∧ platform_engagements (cleanTable emptyProbe) = []
       ∧ media_type_counts (cleanTable emptyProbe) = []
       ∧ engagements_by_location (cleanTable emptyProbe) = []
       ∧ sentimentInsights (cleanTable emptyProbe) = []
       ∧ dateInsights (cleanTable emptyProbe) = []
       ∧ platformInsights (cleanTable emptyProbe) = []
       ∧ mediaInsights (cleanTable emptyProbe) = []
       ∧ locationInsights (cleanTable emptyProbe) = []) :=
  ⟨by decide, c7_empty_pipeline emptyProbe (by decide)⟩

/-- A two-day input whose daily totals are both `-10` (negative `Engagements`
values pass the coercion unchanged); the two 10%-band conditions of
lines 149-151 then overlap. -/
def negTrendInput : List RawRecord :=
  [{ date := .ok ⟨0, 0⟩, platform := none, sentiment := none,
     location := none, engagements := .num (-10), mediaType := none },
   { date := .ok ⟨1, 0⟩, platform := none, sentiment := none,
     location := none, engagements := .num (-10), mediaType := none }]

/-- C6 counterexample: on the dataset with daily totals `[-10, -10]` the
last total is below the first times 0.9 (both conditions of the band
overlap at negative totals), but the reported trend is `upward`, not
`downward` — refuting "downward trend iff last < first x 0.9". -/
theorem c6_counterexample :
    ((lastTotal (cleanTable negTrendInput) : Rat)
        < (firstTotal (cleanTable negTrendInput) : Rat) * (9 / 10 : Rat))
    ∧ DateInsight.trend Trend.upward ∈ dateInsights (cleanTable negTrendInput)
    ∧ DateInsight.trend Trend.downward ∉ dateInsights (cleanTable negTrendInput)
    := by
  have hfirst : firstTotal (cleanTable negTrendInput) = -10 := by decide
  have hlast : lastTotal (cleanTable negTrendInput) = -10 := by decide
  have hlen : (engagement_by_date (cleanTable negTrendInput)).length = 2 := by
    decide
  have htrend : trendClass (firstTotal (cleanTable negTrendInput))
      (lastTotal (cleanTable negTrendInput)) = Trend.upward := by
    rw [hfirst, hlast]
    unfold trendClass
    rw [if_pos (by push_cast; norm_num)]
  refine ⟨?_, ?_, ?_⟩
  · rw [hfirst, hlast]
    push_cast
    norm_num
  · unfold dateInsights
    simp only [hlen, htrend]
    simp
  · unfold dateInsights
    simp only [hlen, htrend]
    simp

/-- C6 amended: with at least two aggregate rows, the engagement-trend
insight is determined solely by the first and last chronological totals:
`upward` iff last > first x 1.1, `downward` iff (not upward and
last < first x 0.9), `stable` otherwise.  (The two band conditions can both
hold when the first total is negative; the code then reports `upward`, which
is the single deviation from the claim's symmetric "iff" phrasing.) -/
theorem c6_trend_band (rows : List CleanRecord)
    (h : 2 ≤ (engagement_by_date rows).length) :
    dateInsights rows
      = [DateInsight.peak (peakOf (engagement_by_date rows)).1
           (peakOf (engagement_by_date rows)).2,
         DateInsight.average
           ((((engagement_by_date rows).map (fun p => p.2)).sum : Rat)
             / ((engagement_by_date rows).length : Rat)),
         DateInsight.trend (trendClass (firstTotal rows) (lastTotal rows))]
    ∧ (trendClass (firstTotal rows) (lastTotal rows) = Trend.upward
        ↔ (firstTotal rows : Rat) * (11 / 10 : Rat) < (lastTotal rows : Rat))
    ∧ (trendClass (firstTotal rows) (lastTotal rows) = Trend.downward
        ↔ ¬ (firstTotal rows : Rat) * (11 / 10 : Rat) < (lastTotal rows : Rat)
          ∧ (lastTotal rows : Rat) < (firstTotal rows : Rat) * (9 / 10 : Rat))
    ∧ (trendClass (firstTotal rows) (lastTotal rows) = Trend.stable
        ↔ ¬ (firstTotal rows : Rat) * (11 / 10 : Rat) < (lastTotal rows : Rat)
          ∧ ¬ (lastTotal rows : Rat)
              < (firstTotal rows : Rat) * (9 / 10 : Rat)) := by
  have h0 : 0 < (engagement_by_date rows).length := by omega
  have h1 : 1 < (engagement_by_date rows).length := by omega
  refine ⟨?_, ?_, ?_, ?_⟩
  · unfold dateInsights
    simp [h0, h1]
  all_goals
    unfold trendClass
    by_cases hu : (firstTotal rows : Rat) * (11 / 10 : Rat)
        < (lastTotal rows : Rat) <;>
      by_cases hd2 : (lastTotal rows : Rat)
          < (firstTotal rows : Rat) * (9 / 10 : Rat) <;>
      simp [hu, hd2]

/-- A two-day cleaned dataset with totals `10` then `20`, witnessing the
amended trend-band theorem. -/
def twoDayInput : List CleanRecord :=
  [{ date := ⟨0, 0⟩, platform := none, sentiment := none, location := none,
     engagements := 10, mediaType := none },
   { date := ⟨1, 0⟩, platform := none, sentiment := none, location := none,
     engagements := 20, mediaType := none }]

theorem c6_trend_band_witness :
    2 ≤ (engagement_by_date twoDayInput).length
    ∧ (dateInsights twoDayInput
        = [DateInsight.peak (peakOf (engagement_by_date twoDayInput)).1
             (peakOf (engagement_by_date twoDayInput)).2,
           DateInsight.average
             ((((engagement_by_date twoDayInput).map (fun p => p.2)).sum : Rat)
               / ((engagement_by_date twoDayInput).length : Rat)),
           DateInsight.trend
             (trendClass (firstTotal twoDayInput) (lastTotal twoDayInput))]
      ∧ (trendClass (firstTotal twoDayInput) (lastTotal twoDayInput)
            = Trend.upward
          ↔ (firstTotal twoDayInput : Rat) * (11 / 10 : Rat)
              < (lastTotal twoDayInput : Rat))
      ∧ (trendClass (firstTotal twoDayInput) (lastTotal twoDayInput)
            = Trend.downward
          ↔ ¬ (firstTotal twoDayInput : Rat) * (11 / 10 : Rat)
                < (lastTotal twoDayInput : Rat)
            ∧ (lastTotal twoDayInput : Rat)
                < (firstTotal twoDayInput : Rat) * (9 / 10 : Rat))
      ∧ (trendClass (firstTotal twoDayInput) (lastTotal twoDayInput)
            = Trend.stable
          ↔ ¬ (firstTotal twoDayInput : Rat) * (11 / 10 : Rat)
                < (lastTotal twoDayInput : Rat)
            ∧ ¬ (lastTotal twoDayInput : Rat)
                < (firstTotal twoDayInput : Rat) * (9 / 10 : Rat))) :=
  ⟨by decide, c6_trend_band twoDayInput (by decide)⟩

/-- A two-platform input producing the platform aggregate
`[(A, 100), (B, 0)]` of the specification's scenario. -/
def zeroSecondInput : List RawRecord :=
  [{ date := .ok ⟨0, 0⟩, platform := some "A", sentiment := none,
     location := none, engagements := .num 100, mediaType := none },
   { date := .ok ⟨0, 0⟩, platform := some "B", sentiment := none,
     location := none, engagements := .num 0, mediaType := none }]

/-- C5: the `percentage_difference` computation of line 178 special-cases a
zero rank-2 sum to an explicit infinite value (never a division and never
not-a-number), and on the scenario aggregate `[(A, 100), (B, 0)]` the
comparison insight carries that infinite value, counted as "more".
(The reporting of this value on line 179 is a separate syntax slip in the
source, see the results record.) -/
theorem c5_zero_divisor_infinite :
    (∀ top : Int, percentageDifference top 0 = PDiff.infinite)
    ∧ platform_engagements (cleanTable zeroSecondInput) = [("A", 100), ("B", 0)]
    ∧ platformInsights (cleanTable zeroSecondInput)
        = [PlatformInsight.top "A" 100,
           PlatformInsight.comparison PDiff.infinite true] :=
  ⟨fun t => by simp [percentageDifference], by decide, by decide⟩
